import Mathlib

/-!
Verification development for the PyLrc lyric library (NewestVersion/MyLyric).

The Python source is shallowly embedded:
* Python strings are `List Char` (`Str`); Python string slicing, `rjust`,
  `ljust` are mirrored on lists.
* The four built-in time-tag regular expressions (`TIME_TAB_STRICT_REGREX`,
  `TIME_TAB_NORMAL_REGREX`, `TIME_TAB_LOOSE_REGREX`,
  `TIME_TAB_VERY_LOOSE_REGREX` in LyricTimeTab.py) are embedded as
  deterministic character-level matchers.  Each of these patterns is a
  sequence of character classes and digit runs, so Python's backtracking
  search is equivalent to the deterministic greedy scan implemented here
  (digits can never satisfy the separator or bracket classes, hence
  backtracking can never produce a different overall match).
* `datetime.timedelta` values are embedded as integer microsecond counts
  (ℤ); CPython's timedelta normalises to integer microseconds internally,
  rounding a fractional microseconds argument half-to-even.
* Fallible Python code (raising ValueError / TypeError) is embedded with
  `Except PyError`.
-/

namespace PyLrc

/-- Python `str` as a list of code points. -/
abbrev Str := List Char

/-- Python errors relevant to the embedded code (messages elided). -/
inductive PyError where
  | valueError
  | typeError
  deriving Repr, DecidableEq

instance {ε α : Type _} [DecidableEq ε] [DecidableEq α] :
    DecidableEq (Except ε α) := fun a b =>
  match a, b with
  | .error e, .error f => decidable_of_iff (e = f) (by simp)
  | .ok x, .ok y => decidable_of_iff (x = y) (by simp)
  | .error _, .ok _ => .isFalse (by simp)
  | .ok _, .error _ => .isFalse (by simp)

/-- Python `s[a:b]` slicing (for 0 ≤ a ≤ b). -/
def pySlice (l : Str) (a b : ℕ) : Str := (l.drop a).take (b - a)

/-- Python `s.rjust(w, c)`: left-pad with `c` up to width `w`. -/
def rjust (w : ℕ) (c : Char) (l : Str) : Str := List.replicate (w - l.length) c ++ l

/-- Python `s.ljust(w, c)`: right-pad with `c` up to width `w`. -/
def ljust (w : ℕ) (c : Char) (l : Str) : Str := l ++ List.replicate (w - l.length) c

/-- Value of a decimal digit string, as computed by Python `int(s)` for a
    nonempty digit string (`digitsToNat [] = 0`, the code guards "" itself). -/
def digitsToNat (l : Str) : ℕ := l.foldl (fun a c => 10 * a + (c.toNat - 48)) 0

/-- Decimal digit rendering, fuel-recursive so that it reduces inside the
    kernel; `fuel` bounds the number of digits. -/
def natDigitsAux : ℕ → ℕ → Str
  | 0, _ => []
  | fuel + 1, n =>
    if n < 10 then [Char.ofNat (48 + n)]
    else natDigitsAux fuel (n / 10) ++ [Char.ofNat (48 + n % 10)]

/-- Decimal digits of `n`, mirroring Python `str(n)` for `n : ℕ`
    (`n + 1` units of fuel always suffice since `10 ^ (n + 1) > n`). -/
def natDigits (n : ℕ) : Str := natDigitsAux (n + 1) n

/-- Python `str(z)` for `z : ℤ`. -/
def intDigits (z : ℤ) : Str :=
  if z < 0 then '-' :: natDigits z.natAbs else natDigits z.toNat

/-- `Char.isDigit`, matching Python `\d` / `str.isdigit` on the ASCII digits
    (the only digits occurring in this development). -/
def isDigitChar (c : Char) : Bool := c.isDigit

/-! ### Time-tag grammar (LyricTimeTab.py, lines 91-139)

The regular expressions have seven named groups: `left_bracket`, `minutes`,
`minutes_seconds_seperator`, `seconds`, `seconds_milliseconds_seperator`,
`milliseconds`, `right_bracket`.  A match is represented by the captured
groups; the matched text is their concatenation (the groups are contiguous
and cover the whole match). -/

/-- The parsing modes of `LyricTimeTab.MODE_TYPE` that have built-in
    regular expressions (`self_defined` carries a user pattern and is not
    exercised by any claim). -/
inductive Mode where
  | strict
  | normal
  | loose
  | veryLoose
  deriving Repr, DecidableEq

/-- The seven capture groups of a time-tag match.
    `secMsSep = none` mirrors a Python `None` group (the optional
    `(?P<seconds_milliseconds_seperator>[:.])?` did not participate). -/
structure MatchCaps where
  lb : Str
  minutes : Str
  minSecSep : Str
  seconds : Str
  secMsSep : Option Str
  milliseconds : Str
  rb : Str
  deriving Repr, DecidableEq

/-- The text of the whole match (`match.group()`). -/
def MatchCaps.text (c : MatchCaps) : Str :=
  c.lb ++ c.minutes ++ c.minSecSep ++ c.seconds ++ c.secMsSep.getD [] ++
    c.milliseconds ++ c.rb

/-- Read one character belonging to a character class. -/
def readCharSet (S : List Char) : Str → Option (Char × Str)
  | [] => none
  | c :: rest => if c ∈ S then some (c, rest) else none

/-- Read exactly `k` digit characters (`\d{k}`). -/
def readExactDigits : ℕ → Str → Option (Str × Str)
  | 0, l => some ([], l)
  | _ + 1, [] => none
  | k + 1, c :: rest =>
    if isDigitChar c then
      (readExactDigits k rest).map (fun p => (c :: p.1, p.2))
    else none

/-- Read a greedy digit run (`\d*`); always succeeds. -/
def readDigitRun (l : Str) : Str × Str :=
  (l.takeWhile isDigitChar, l.dropWhile isDigitChar)

/-- Left-bracket class `[\[<]`. -/
def lbClass : List Char := ['[', '<']

/-- Right-bracket class `[]>]`. -/
def rbClass : List Char := [']', '>']

/-- `TIME_TAB_STRICT_REGREX` as an anchored prefix matcher: returns the
    captures and the remaining suffix. -/
def matchStrict (l : Str) : Option (MatchCaps × Str) := do
  let (lb, r1) ← readCharSet lbClass l
  let (mins, r2) ← readExactDigits 2 r1
  let (sep1, r3) ← readCharSet [':'] r2
  let (secs, r4) ← readExactDigits 2 r3
  let (sep2, r5) ← readCharSet ['.'] r4
  let (ms, r6) ← readExactDigits 2 r5
  let (rb, r7) ← readCharSet rbClass r6
  some (⟨[lb], mins, [sep1], secs, some [sep2], ms, [rb]⟩, r7)

/-- `TIME_TAB_NORMAL_REGREX` as an anchored prefix matcher.  The
    `\d{2,3}` milliseconds group followed by the bracket class matches a
    maximal digit run of length exactly 2 or 3 (a longer run makes both
    backtracking alternatives place a digit where the bracket must be). -/
def matchNormal (l : Str) : Option (MatchCaps × Str) := do
  let (lb, r1) ← readCharSet lbClass l
  let (mins, r2) ← readExactDigits 2 r1
  let (sep1, r3) ← readCharSet [':'] r2
  let (secs, r4) ← readExactDigits 2 r3
  let (sep2, r5) ← readCharSet [':', '.'] r4
  if (readDigitRun r5).1.length = 2 ∨ (readDigitRun r5).1.length = 3 then
    let (rb, r7) ← readCharSet rbClass (readDigitRun r5).2
    some (⟨[lb], mins, [sep1], secs, some [sep2], (readDigitRun r5).1, [rb]⟩, r7)
  else none

/-- `TIME_TAB_LOOSE_REGREX` as an anchored prefix matcher.  After the
    greedy seconds run the optional separator participates exactly when the
    next character is `:` or `.`; the optional `(?P<milliseconds>\d*)?`
    group always participates (possibly capturing `""`). -/
def matchLoose (l : Str) : Option (MatchCaps × Str) := do
  let (lb, r1) ← readCharSet lbClass l
  let (sep1, r3) ← readCharSet [':'] (readDigitRun r1).2
  match readCharSet [':', '.'] (readDigitRun r3).2 with
  | some (sep2, r5) =>
    let (rb, r7) ← readCharSet rbClass (readDigitRun r5).2
    some (⟨[lb], (readDigitRun r1).1, [sep1], (readDigitRun r3).1, some [sep2],
           (readDigitRun r5).1, [rb]⟩, r7)
  | none =>
    let (rb, r7) ← readCharSet rbClass (readDigitRun r3).2
    some (⟨[lb], (readDigitRun r1).1, [sep1], (readDigitRun r3).1, none, [], [rb]⟩, r7)

/-- `TIME_TAB_VERY_LOOSE_REGREX` (LyricTimeTab.py lines 125-131).  In the
    source this pattern is character-for-character identical to the loose
    pattern: in particular its `left_bracket` group is the mandatory class
    `[\[<]`, so a bracket is required (the class docstring claims brackets
    may be omitted in this mode). -/
def matchVeryLoose : Str → Option (MatchCaps × Str) := matchLoose

/-- `TIME_TAB_DIFFERENT_MODE_REGREX` dispatch. -/
def matchOf : Mode → Str → Option (MatchCaps × Str)
  | .strict => matchStrict
  | .normal => matchNormal
  | .loose => matchLoose
  | .veryLoose => matchVeryLoose

/-! ### LyricTimeTab state and initialization -/

/-- The mutable state of a `LyricTimeTab` object.  `timeStamp` is the
    `datetime.timedelta` `_time_stamp` as an integer microsecond count;
    field values of `none` are Python `None`. -/
structure TimeTab where
  original : Option Str
  current : Option Str
  mode : Mode
  matchCaps : Option MatchCaps
  minLenMinutes : Option ℕ
  minLenSeconds : Option ℕ
  lenMillisecond : Option ℕ
  cutOff : Bool
  brackets : Option (Str × Str)
  minSecSep : Option Str
  secMsSep : Option Str
  timeStamp : Option ℤ
  deriving Repr, DecidableEq

/-- The microsecond count of
    `datetime.timedelta(minutes=m, seconds=s, milliseconds=ms, microseconds=f)`
    as computed in `_initialize_time_tab` (lines 298-329): the milliseconds
    group is left-padded to 4 digits, the first 3 digits are the millisecond
    count and the remaining digits form a fractional microsecond `f < 1`,
    which CPython's timedelta rounds half-to-even.  The integer part of the
    total is always even, so the fraction contributes 1 microsecond exactly
    when it exceeds 1/2. -/
def capsMicroseconds (caps : MatchCaps) : ℤ :=
  let minutesInt : ℕ := if caps.minutes = [] then 0 else digitsToNat caps.minutes
  let secondsInt : ℕ := if caps.seconds = [] then 0 else digitsToNat caps.seconds
  let msStr : Str := rjust 4 '0' caps.milliseconds
  let millisecondsInt : ℕ := digitsToNat (msStr.take 3)
  let fracNum : ℕ := digitsToNat (msStr.drop 3)
  let fracDen : ℕ := 10 ^ (msStr.drop 3).length
  let extra : ℕ := if fracDen < 2 * fracNum then 1 else 0
  (((minutesInt * 60 + secondsInt) * 1000 + millisecondsInt) * 1000 + extra : ℕ)

/-- `_initialize_time_tab` (lines 235-329), acting on a state whose
    `current` and `mode` are already set: with `current = None` all derived
    fields are reset to `None`; otherwise the mode's pattern must match a
    prefix of the tag text (`re.match`), else `ValueError` is raised. -/
def reInitialize (t : TimeTab) : Except PyError TimeTab :=
  match t.current with
  | none =>
    .ok { t with
          matchCaps := none
          minLenMinutes := none, minLenSeconds := none, lenMillisecond := none
          brackets := none
          minSecSep := none, secMsSep := none
          timeStamp := none }
  | some tab =>
    match matchOf t.mode tab with
    | none => .error .valueError
    | some (caps, _) =>
      .ok { t with
            matchCaps := some caps
            minLenMinutes := some caps.minutes.length
            minLenSeconds := some caps.seconds.length
            lenMillisecond := some caps.milliseconds.length
            brackets := some (caps.lb, caps.rb)
            minSecSep := some caps.minSecSep
            secMsSep := caps.secMsSep
            timeStamp := some (capsMicroseconds caps) }

/-- `LyricTimeTab.__init__` (lines 156-216) for the built-in modes: record
    the tag text and mode, then pre-separate via `_initialize_time_tab`. -/
def initTimeTab (tab : Option Str) (mode : Mode) : Except PyError TimeTab :=
  reInitialize
    { original := tab, current := tab, mode := mode
      matchCaps := none
      minLenMinutes := none, minLenSeconds := none, lenMillisecond := none
      cutOff := true
      brackets := none, minSecSep := none, secMsSep := none
      timeStamp := none }

/-- The `current_time_tab` setter (lines 388-394): store the new tag text
    and re-run `_initialize_time_tab`. -/
def setCurrentTimeTab (t : TimeTab) (v : Str) : Except PyError TimeTab :=
  reInitialize { t with current := some v }

/-! ### Formatting (LyricTimeTab.py lines 768-1020) -/

/-- `convert_time_tab_to_time_tab_classmethod` (lines 768-837) on a
    timedelta of `us` microseconds.  `minutes_int` is
    `int(total_seconds() // 60)` (floor), `seconds_int` is
    `int(total_seconds() % 60)` (Python float `%` has the divisor's sign,
    then `int` truncates the nonnegative result), `microsecond_int` is the
    normalised `timedelta.microseconds ∈ [0, 10^6)`, which the code then
    uses directly as `millisecond_int`. -/
def convertClassmethod (us : ℤ) (minLenMinutes minLenSeconds minLenMillisecond : ℕ)
    (cutOffMillisecond : Bool) (brackets : Str × Str) (seperator : Str × Str) : Str :=
  let minutesInt : ℤ := us.fdiv 60000000
  let secondsInt : ℕ := (us.emod 60000000).toNat / 1000000
  let millisecondInt : ℕ := (us.emod 1000000).toNat
  let minutesStr : Str := rjust minLenMinutes '0' (intDigits minutesInt)
  let secondsStr : Str := rjust minLenSeconds '0' (natDigits secondsInt)
  let millisecondStr : Str := ljust minLenMillisecond '0' (natDigits millisecondInt)
  let millisecondStr : Str :=
    if cutOffMillisecond then millisecondStr.take minLenMillisecond else millisecondStr
  brackets.1 ++ minutesStr ++ seperator.1 ++ secondsStr ++ seperator.2 ++
    millisecondStr ++ brackets.2

/-- `convert_to_time_tab_base_on_inner_param` (lines 870-892): format the
    held duration with the captured field widths, separators and brackets.
    A `None` time stamp raises ValueError; a `None` separator would be
    rendered by the f-string as the text `None`. -/
def convertBaseOnInnerParam (t : TimeTab) : Except PyError Str :=
  match t.timeStamp with
  | none => .error .valueError
  | some us =>
    match t.minLenMinutes, t.minLenSeconds, t.lenMillisecond, t.brackets, t.minSecSep with
    | some wm, some ws, some wms, some br, some s1 =>
      .ok (convertClassmethod us wm ws wms t.cutOff br
            (s1, t.secMsSep.getD ['N', 'o', 'n', 'e']))
    | _, _, _, _, _ => .error .typeError

/-- `paring_brackets` (lines 922-956) with the default left-bracket
    pairing: an unrecognised left bracket falls back to `('[', ']')`. -/
def paringBrackets (brackets : Str × Str) : Str × Str :=
  if brackets.1 = ['['] then (['['], [']'])
  else if brackets.1 = ['<'] then (['<'], ['>'])
  else (['['], [']'])

/-- `convert_to_standardized_time_tab` (lines 959-1006) with default
    arguments: standard widths 2/2/2, truncation on, separators `:` `.`,
    brackets completed from the captured ones.  Python would raise on a
    `None` bracket pair or time stamp (attribute/subscript error). -/
def convertToStandardized (t : TimeTab) : Except PyError Str :=
  match t.brackets with
  | none => .error .typeError
  | some br =>
    match t.timeStamp with
    | none => .error .typeError
    | some us =>
      .ok (convertClassmethod us 2 2 2 true (paringBrackets br) ([':'], ['.']))

/-- `standardize_self` (lines 1009-1020): assign the standardized text to
    `current_time_tab`, whose setter re-runs `_initialize_time_tab`. -/
def standardizeSelf (t : TimeTab) : Except PyError TimeTab := do
  let txt ← convertToStandardized t
  setCurrentTimeTab t txt

/-! ### Tokenizer (LyricLineContent.split_line_to_time_and_char, lines 411-492) -/

/-- Work loop of `re.finditer`: starting at `pos`, try the anchored matcher
    on the suffix; on success record the span and continue after it,
    otherwise advance one position.  `fuel` bounds the recursion; with
    `fuel = line.length + 1` it never runs out because every built-in
    pattern consumes at least its bracket character. -/
def finditerGo (M : Str → Option (MatchCaps × Str)) (line : Str) :
    ℕ → ℕ → List (ℕ × ℕ)
  | 0, _ => []
  | fuel + 1, pos =>
    if pos < line.length then
      match M (line.drop pos) with
      | some (caps, _) =>
        let n := caps.text.length
        (pos, pos + n) :: finditerGo M line fuel (pos + n)
      | none => finditerGo M line fuel (pos + 1)
    else []

/-- `re.finditer(pattern, line)` as a list of `(start, end)` spans. -/
def finditer (M : Str → Option (MatchCaps × Str)) (line : Str) : List (ℕ × ℕ) :=
  finditerGo M line (line.length + 1) 0

/-- The loop body of `split_line_to_time_and_char` (lines 448-492),
    producing `(grapheme, optional raw tag text)` pairs: characters strictly
    between tags (or before the first tag) are untagged; the single
    character that immediately follows a match, if any, carries that match's
    text.  The slice `line[end:end+1]` reproduces the source's
    `if end < len(line)` guard. -/
def splitLoop (line : Str) : List (ℕ × ℕ) → ℕ → List (Char × Option Str)
  | [], prevEnd =>
    if prevEnd + 1 < line.length then (line.drop (prevEnd + 1)).map (fun c => (c, none))
    else []
  | (s, e) :: rest, prevEnd =>
    (if prevEnd + 1 ≤ s then
      (if prevEnd = 0 then pySlice line prevEnd s else pySlice line (prevEnd + 1) s).map
        (fun c => (c, none))
     else []) ++
    (pySlice line e (e + 1)).map (fun c => (c, some (pySlice line s e))) ++
    splitLoop line rest e

/-- `split_line_to_time_and_char` at the `(grapheme, raw tag text)` level:
    the scan over `re.finditer` matches, independent of the subsequent
    `LyricCharacter` / `LyricTimeTab` object construction. -/
def splitPairs (mode : Mode) (line : Str) : List (Char × Option Str) :=
  splitLoop line (finditer (matchOf mode) line) 0

/-! ### LyricCharacter (LyricCharacter.py) -/

/-- The state of a `LyricCharacter`: a single character plus an optional
    `LyricTimeTab`. -/
structure CharState where
  data : Char
  timeTab : Option TimeTab
  deriving Repr, DecidableEq

/-- `LyricCharacter.__init__` (lines 63-85).  The constructor demands a
    1-character string and, when a time tab is supplied, assigns
    `('<', '>')` to that tab's `brackets` attribute — mutating the very
    object the caller passed in.  The returned `timeTab` component is that
    shared object's state after construction. -/
def mkLyricCharacter (character : Str) (timeTab : Option TimeTab) :
    Except PyError CharState :=
  match character with
  | [c] =>
    .ok { data := c
          timeTab := timeTab.map (fun t => { t with brackets := some (['<'], ['>']) }) }
  | _ => .error .valueError

/-- Full `split_line_to_time_and_char`: build a `LyricCharacter` for every
    pair, constructing a `LyricTimeTab` from the raw tag text for tagged
    characters (`LyricCharacter(char, LyricTimeTab(tag, (mode, None)))`). -/
def split (mode : Mode) (line : Str) : Except PyError (List CharState) :=
  (splitPairs mode line).mapM (fun p =>
    match p.2 with
    | none => mkLyricCharacter [p.1] none
    | some tag => do
      let t ← initTimeTab (some tag) mode
      mkLyricCharacter [p.1] (some t))

/-! ### CJKV classification (LyricCharacter.py lines 27-149) -/

/-- `CHINESE_OR_CHU_NOM_RANGES`: the inclusive Unicode ranges of the
    source's table, in declaration order. -/
def chineseOrChuNomRanges : List (ℕ × ℕ) :=
  [ (0x2E80, 0x2EFF)
  , (0x2F00, 0x2FDF)
  , (0x4E00, 0x9FFF)
  , (0xF900, 0xFAFF)
  , (0x2F800, 0x2FA1F)
  , (0x3400, 0x4DBF)
  , (0x20000, 0x2A6DF)
  , (0x2A700, 0x2B73F)
  , (0x2B740, 0x2B81F)
  , (0x2B820, 0x2CEAF)
  , (0x2CEB0, 0x2EBEF)
  , (0x30000, 0x3134F)
  , (0x31350, 0x323AF)
  , (0x2EBF0, 0x2EE5F)
  , (0xAA60, 0xAA7F)
  , (0x3007, 0x3007)
  , (0x3005, 0x3005)
  , (0x303B, 0x303B)
  , (0x20120, 0x20120)
  , (0x16FE3, 0x16FE3)
  , (0x2E80, 0x2E80) ]

/-- `is_in_unicode_range` (lines 87-112) for a single character: the
    for/else loop returns `True` exactly when every character of the input
    lies in the range. -/
def isInUnicodeRange (c : Char) (r : ℕ × ℕ) : Bool :=
  r.1 ≤ c.toNat ∧ c.toNat ≤ r.2

/-- `is_cjkv_classmethod` (lines 114-139): the for/else loop over the range
    table breaks (returning `True`) at the first range containing the
    character, and falls through to `False` when no range does. -/
def isCjkvChar (c : Char) : Bool :=
  go chineseOrChuNomRanges
where
  go : List (ℕ × ℕ) → Bool
    | [] => false
    | r :: rest => if isInUnicodeRange c r then true else go rest

/-! ### LyricPronunciationGroup (LyricLineContent.py lines 24-264) -/

/-- A pronunciation group: an annotated base string plus an optional list
    of child groups (the reading). -/
inductive PronGroup where
  | mk (base : List CharState) (pron : Option (List PronGroup))

/-- The base characters of a group (`self.data` / `original_annotated_string`). -/
def PronGroup.base : PronGroup → List CharState
  | .mk b _ => b

/-- The `pronunciation_line_list` of a group. -/
def PronGroup.pron : PronGroup → Option (List PronGroup)
  | .mk _ p => p

/-- `get_base_str_without_number` (lines 118-122): the base characters that
    are not digits, concatenated. -/
def PronGroup.baseStrWithoutNumber (g : PronGroup) : Str :=
  (g.base.filter (fun c => ¬ isDigitChar c.data)).map (·.data)

/-- `LyricPronunciationGroup.is_cjkv` (lines 230-241).  The for loop breaks
    on the first non-CJKV character and then returns `True`; the for/else
    branch — taken when every character is CJKV, including for an empty
    base — returns `False`. -/
def PronGroup.isCjkv (g : PronGroup) : Bool :=
  go g.base
where
  go : List CharState → Bool
    | [] => false
    | c :: rest => if ¬ isCjkvChar c.data then true else go rest

/-- `contain_cjkv` (lines 243-252): `True` at the first CJKV character. -/
def PronGroup.containCjkv (g : PronGroup) : Bool :=
  go g.base
where
  go : List CharState → Bool
    | [] => false
    | c :: rest => if isCjkvChar c.data then true else go rest

/-- `count_cjkv` (lines 254-264). -/
def PronGroup.countCjkv (g : PronGroup) : ℕ :=
  g.base.countP (fun c => isCjkvChar c.data)

/-! ### LyricLineContent (LyricLineContent.py lines 267-736) -/

/-- The state of a `LyricLineContent`: the flat character list and the
    pronunciation-group list. -/
structure LineContent where
  charList : List CharState
  pronList : List PronGroup

/-- The loop of `LyricLineContent.__init__` over a group list (lines
    318-326): for each group it calls
    `self._lyric_char_list.append(*group.original_annotated_string)`.
    `list.append` takes exactly one argument, so unpacking a base of length
    ≠ 1 raises `TypeError`; only singleton bases survive. -/
def collectGroupChars : List PronGroup → Except PyError (List CharState)
  | [] => .ok []
  | g :: rest =>
    match g.base with
    | [x] => (collectGroupChars rest).map (fun l => x :: l)
    | _ => .error .typeError

/-- `LyricLineContent.__init__` on an explicit group list. -/
def mkLineContentFromGroups (groups : List PronGroup) : Except PyError LineContent := do
  let chars ← collectGroupChars groups
  .ok { charList := chars, pronList := groups }

/-- `LyricLineContent.__init__` on a raw string (lines 307-317): tokenize
    it and wrap the characters in a single reading-less group. -/
def mkLineContentFromText (line : Str) (mode : Mode) : Except PyError LineContent := do
  let chars ← split mode line
  .ok { charList := chars, pronList := [.mk chars none] }

/-- `LyricLineContent.__add__` (lines 352-361): rebuild from the
    concatenated group lists. -/
def lineAdd (a b : LineContent) : Except PyError LineContent :=
  mkLineContentFromGroups (a.pronList ++ b.pronList)

/-- `get_kana_tag` (lines 596-638).  For each group containing a CJKV
    character: with a reading present, the inner for loop emits
    `get_base_str_without_number() + "1"` at the first CJKV character, then
    (reading or not) `count_cjkv() * "1"` is appended. -/
def getKanaTag (lc : LineContent) : Str :=
  go lc.pronList
where
  firstCjkvEmit (g : PronGroup) : List CharState → Str
    | [] => []
    | c :: rest =>
      if isCjkvChar c.data then g.baseStrWithoutNumber ++ ['1']
      else firstCjkvEmit g rest
  go : List PronGroup → Str
    | [] => []
    | g :: rest =>
      (if g.containCjkv then
        (if g.pron.isSome then
          firstCjkvEmit g g.base ++ List.replicate g.countCjkv '1'
         else List.replicate g.countCjkv '1')
       else []) ++ go rest

/-! ### Arithmetic operators (LyricTimeTab.py lines 598-661) -/

/-- Round a rational to the nearest integer, ties to even — the rounding
    CPython's timedelta applies to a fractional-microsecond remainder. -/
def roundHalfEven (q : ℚ) : ℤ :=
  let f := q.floor
  let r := q - f
  if r < 1 / 2 then f
  else if 1 / 2 < r then f + 1
  else if f % 2 = 0 then f else f + 1

/-- `datetime.timedelta(seconds=q)` in microseconds.  A Python `float`
    operand denotes the exact rational value of that float; CPython rounds
    the fractional microsecond remainder half-to-even (double-rounding
    through the intermediate float multiplication can differ only when the
    exact product lies within one double ulp of a half-integer, which no
    value in this development approaches). -/
def timedeltaOfSeconds (q : ℚ) : ℤ := roundHalfEven (q * 1000000)

/-- The right operands accepted by `__OperatorIntFloadGuard` (lines
    598-654): another `LyricTimeTab`, an `int`, a `float` (as its exact
    rational value), or a `datetime.timedelta` (as microseconds).  Any
    other type raises `TypeError`. -/
inductive Operand where
  | tab (t : TimeTab)
  | int (n : ℤ)
  | float (q : ℚ)
  | delta (d : ℤ)

/-- The timedelta the guard passes to the wrapped operator, as
    microseconds: `other.time_stamp` for a tab (`None` propagates),
    `timedelta(seconds=other)` for a number, the timedelta itself. -/
def operandDelta : Operand → Option ℤ
  | .tab t => t.timeStamp
  | .int n => some (n * 1000000)
  | .float q => some (timedeltaOfSeconds q)
  | .delta d => some d

/-- The body `self.time_stamp += other` of `__add__` (lines 656-661),
    acting on the deep copy made by the guard: adding a timedelta to a
    `None` time stamp raises `TypeError`, otherwise the copy's `time_stamp`
    is replaced by the sum.  No re-initialization happens (the comment in
    the decorator: initialization is only for `current_time_tab`). -/
def timeStampAdd (t : TimeTab) (d : ℤ) : Except PyError TimeTab :=
  match t.timeStamp with
  | none => .error .typeError
  | some us => .ok { t with timeStamp := some (us + d) }

/-- `LyricTimeTab.__add__` under `__OperatorIntFloadGuard`: dispatch on the
    operand type, deep-copy the left operand, and add the operand's
    timedelta to the copy's time stamp.  The deep copy makes the operation
    pure with respect to the left operand, which the embedding reflects by
    returning a fresh state. -/
def addOp (t : TimeTab) (o : Operand) : Except PyError TimeTab :=
  match o with
  | .tab o' =>
    match o'.timeStamp with
    | none => .error .typeError
    | some d => timeStampAdd t d
  | .int n => timeStampAdd t (n * 1000000)
  | .float q => timeStampAdd t (timedeltaOfSeconds q)
  | .delta d => timeStampAdd t d

/-! ### Canonical strict-mode texts and decimal-digit helpers -/

/-- The ASCII digit character of `d < 10`. -/
def digitChar (d : ℕ) : Char := Char.ofNat (48 + d)

/-- A decimal number left-padded with `0` to width 2 (Python
    `str(n).rjust(2, "0")`). -/
def pad2 (n : ℕ) : Str := rjust 2 '0' (natDigits n)

/-- A left bracket: `[` or `<`. -/
def lbChar (b : Bool) : Char := if b then '[' else '<'

/-- A right bracket: `]` or `>`. -/
def rbChar (b : Bool) : Char := if b then ']' else '>'

/-- A two-digit millisecond field. -/
def msField (d1 d2 : ℕ) : Str := [digitChar d1, digitChar d2]

/-- The general shape of a strict-mode time-tag text:
    `⟨lb⟩MM:SS.XY⟨rb⟩` with `m, s < 100` rendered over two digits and
    millisecond digits `d1 d2`.  Every text accepted by
    `TIME_TAB_STRICT_REGREX` is of this shape. -/
def mkStrictText (bl br : Bool) (m s d1 d2 : ℕ) : Str :=
  lbChar bl :: (pad2 m ++ ':' :: (pad2 s ++ '.' :: (msField d1 d2 ++ [rbChar br])))

/-- The capture groups produced by matching `mkStrictText`. -/
def strictCaps (bl br : Bool) (m s d1 d2 : ℕ) : MatchCaps :=
  ⟨[lbChar bl], pad2 m, [':'], pad2 s, some ['.'], msField d1 d2, [rbChar br]⟩

/-- The `LyricTimeTab` state right after `_initialize_time_tab` has
    processed a strict-mode text `txt` with captures `caps`; `orig` is the
    construction-time tag text, which later re-initializations never touch. -/
def strictStateO (orig : Option Str) (txt : Str) (caps : MatchCaps) : TimeTab :=
  ⟨orig, some txt, .strict, some caps, some caps.minutes.length,
    some caps.seconds.length, some caps.milliseconds.length, true,
    some (caps.lb, caps.rb), some caps.minSecSep, caps.secMsSep,
    some (capsMicroseconds caps)⟩

/-- The first millisecond digit after one standardization pass: the parsed
    millisecond value is `d1` plus a rounded carry from `d2`, and rendering
    it keeps only its leading digit. -/
def carryMs (d1 d2 : ℕ) : ℕ := if d1 = 0 ∧ 10 < 2 * d2 then 1 else d1

/-! ## Concrete test data -/

/-- The line of the spec's concrete tokenizer scenario (§8). -/
def c4Line : Str := ( r"1<00:00.00>あNi你他 <00:01.00>い" ).toList

/-- Observable view of an annotated character: its grapheme together with
    the microsecond duration of its tag, if any. -/
def charView (c : CharState) : Char × Option ℤ :=
  (c.data, c.timeTab.bind (·.timeStamp))

/-- A fully initialized time tab used as a concrete sample (the state of
    `LyricTimeTab("[00:00.00]", ("strict", None))`, written out). -/
def sampleTab : TimeTab :=
  { original := some (( r"[00:00.00]" ).toList)
    current := some (( r"[00:00.00]" ).toList)
    mode := .strict
    matchCaps := some ⟨['['], ['0', '0'], [':'], ['0', '0'], some ['.'], ['0', '0'], [']']⟩
    minLenMinutes := some 2
    minLenSeconds := some 2
    lenMillisecond := some 2
    cutOff := true
    brackets := some (['['], [']'])
    minSecSep := some [':']
    secMsSep := some ['.']
    timeStamp := some 0 }

/-- The group `你他` with reading `えお`, the shape of the kana-tag claim. -/
def c8Group : PronGroup :=
  .mk [⟨'你', none⟩, ⟨'他', none⟩] (some [.mk [⟨'え', none⟩, ⟨'お', none⟩] none])

/-- A line content holding exactly the group `c8Group`. -/
def c8Content : LineContent := ⟨c8Group.base, [c8Group]⟩

/-- An anchored matcher whose successful matches consume a nonempty prefix. -/
def Consumes (M : Str → Option (MatchCaps × Str)) : Prop :=
  ∀ l caps rest, M l = some (caps, rest) → l = caps.text ++ rest ∧ caps.text ≠ []

/-- Well-formedness of a span list relative to a lower bound `p`: spans are
    nonempty, within the line, ordered, and non-overlapping. -/
inductive SpanChain (len : ℕ) : ℕ → List (ℕ × ℕ) → Prop where
  | nil (p : ℕ) : SpanChain len p []
  | cons {p s e : ℕ} {rest : List (ℕ × ℕ)} :
      p ≤ s → s < e → e ≤ len → SpanChain len e rest →
      SpanChain len p ((s, e) :: rest)

/-! ## Matcher consumption lemmas

Every built-in pattern match covers a contiguous nonempty prefix of the
scanned text: the matched text (the concatenated capture groups) followed
by the unscanned remainder reassembles the input. -/

theorem readCharSet_eq_some {S : List Char} {l : Str} {c : Char} {rest : Str}
    (h : readCharSet S l = some (c, rest)) : l = c :: rest := by
  cases l with
  | nil => simp [readCharSet] at h
  | cons a tail =>
    by_cases hm : a ∈ S
    · simp only [readCharSet, if_pos hm, Option.some.injEq, Prod.mk.injEq] at h
      rw [h.1, h.2]
    · simp [readCharSet, hm] at h

theorem readExactDigits_eq_append {k : ℕ} {l d rest : Str}
    (h : readExactDigits k l = some (d, rest)) : l = d ++ rest := by
  induction k generalizing l d with
  | zero =>
    simp only [readExactDigits, Option.some.injEq, Prod.mk.injEq] at h
    rw [← h.1, ← h.2]; rfl
  | succ k ih =>
    cases l with
    | nil => simp [readExactDigits] at h
    | cons a tail =>
      by_cases hd : isDigitChar a
      · simp only [readExactDigits, if_pos hd, Option.map_eq_some'] at h
        obtain ⟨⟨d', rest'⟩, h1, h2⟩ := h
        cases h2
        simp [ih h1]
      · simp [readExactDigits, hd] at h

theorem readDigitRun_eq_append (l : Str) :
    l = (readDigitRun l).1 ++ (readDigitRun l).2 :=
  (List.takeWhile_append_dropWhile ..).symm

theorem matchStrict_consumes : Consumes matchStrict := by
  intro l caps rest h
  unfold matchStrict at h
  obtain ⟨⟨c1, r1⟩, h1, h⟩ := Option.bind_eq_some.mp h
  obtain ⟨⟨mins, r2⟩, h2, h⟩ := Option.bind_eq_some.mp h
  obtain ⟨⟨s1, r3⟩, h3, h⟩ := Option.bind_eq_some.mp h
  obtain ⟨⟨secs, r4⟩, h4, h⟩ := Option.bind_eq_some.mp h
  obtain ⟨⟨s2, r5⟩, h5, h⟩ := Option.bind_eq_some.mp h
  obtain ⟨⟨ms, r6⟩, h6, h⟩ := Option.bind_eq_some.mp h
  obtain ⟨⟨rb, r7⟩, h7, h⟩ := Option.bind_eq_some.mp h
  simp only [Option.some.injEq, Prod.mk.injEq] at h
  obtain ⟨hc, hr⟩ := h
  subst hc hr
  rw [readCharSet_eq_some h1, readExactDigits_eq_append h2,
    readCharSet_eq_some h3, readExactDigits_eq_append h4,
    readCharSet_eq_some h5, readExactDigits_eq_append h6,
    readCharSet_eq_some h7]
  simp [MatchCaps.text]

theorem matchNormal_consumes : Consumes matchNormal := by
  intro l caps rest h
  unfold matchNormal at h
  obtain ⟨⟨c1, r1⟩, h1, h⟩ := Option.bind_eq_some.mp h
  obtain ⟨⟨mins, r2⟩, h2, h⟩ := Option.bind_eq_some.mp h
  obtain ⟨⟨s1, r3⟩, h3, h⟩ := Option.bind_eq_some.mp h
  obtain ⟨⟨secs, r4⟩, h4, h⟩ := Option.bind_eq_some.mp h
  obtain ⟨⟨s2, r5⟩, h5, h⟩ := Option.bind_eq_some.mp h
  have hr5 : r5 = (readDigitRun r5).1 ++ (readDigitRun r5).2 :=
    readDigitRun_eq_append r5
  dsimp only at h
  split at h
  · obtain ⟨⟨rb, r7⟩, h7, h⟩ := Option.bind_eq_some.mp h
    simp only [Option.some.injEq, Prod.mk.injEq] at h
    obtain ⟨hc, hr⟩ := h
    subst hc hr
    refine ⟨?_, by simp [MatchCaps.text]⟩
    rw [readCharSet_eq_some h1, readExactDigits_eq_append h2,
      readCharSet_eq_some h3, readExactDigits_eq_append h4,
      readCharSet_eq_some h5]
    conv_lhs => rw [hr5]
    rw [readCharSet_eq_some h7]
    simp [MatchCaps.text]
  · simp at h

theorem matchLoose_consumes : Consumes matchLoose := by
  intro l caps rest h
  unfold matchLoose at h
  obtain ⟨⟨c1, r1⟩, h1, h⟩ := Option.bind_eq_some.mp h
  have hr1 : r1 = (readDigitRun r1).1 ++ (readDigitRun r1).2 :=
    readDigitRun_eq_append r1
  dsimp only at h
  obtain ⟨⟨s1, r3⟩, h3, h⟩ := Option.bind_eq_some.mp h
  have hr3 : r3 = (readDigitRun r3).1 ++ (readDigitRun r3).2 :=
    readDigitRun_eq_append r3
  dsimp only at h
  split at h
  · next s2 r5 h5 =>
    have hr5 : r5 = (readDigitRun r5).1 ++ (readDigitRun r5).2 :=
      readDigitRun_eq_append r5
    obtain ⟨⟨rb, r7⟩, h7, h⟩ := Option.bind_eq_some.mp h
    simp only [Option.some.injEq, Prod.mk.injEq] at h
    obtain ⟨hc, hr⟩ := h
    subst hc hr
    refine ⟨?_, by simp [MatchCaps.text]⟩
    rw [readCharSet_eq_some h1]
    conv_lhs => rw [hr1]
    rw [readCharSet_eq_some h3]
    conv_lhs => rw [hr3]
    rw [readCharSet_eq_some h5]
    conv_lhs => rw [hr5]
    rw [readCharSet_eq_some h7]
    simp [MatchCaps.text]
  · next h5 =>
    obtain ⟨⟨rb, r7⟩, h7, h⟩ := Option.bind_eq_some.mp h
    simp only [Option.some.injEq, Prod.mk.injEq] at h
    obtain ⟨hc, hr⟩ := h
    subst hc hr
    refine ⟨?_, by simp [MatchCaps.text]⟩
    rw [readCharSet_eq_some h1]
    conv_lhs => rw [hr1]
    rw [readCharSet_eq_some h3]
    conv_lhs => rw [hr3]
    rw [readCharSet_eq_some h7]
    simp [MatchCaps.text]

theorem matchOf_consumes (mode : Mode) : Consumes (matchOf mode) := by
  cases mode with
  | strict => exact matchStrict_consumes
  | normal => exact matchNormal_consumes
  | loose => exact matchLoose_consumes
  | veryLoose => exact matchLoose_consumes

/-! ## Tokenizer span invariants and the grapheme sublist theorem (C1) -/

theorem SpanChain.weaken {len p p' : ℕ} {ms : List (ℕ × ℕ)}
    (hp : p ≤ p') (h : SpanChain len p' ms) : SpanChain len p ms := by
  cases h with
  | nil => exact .nil p
  | cons h1 h2 h3 h4 => exact .cons (le_trans hp h1) h2 h3 h4

theorem finditerGo_chain {M : Str → Option (MatchCaps × Str)} (hM : Consumes M)
    (line : Str) (fuel pos : ℕ) :
    SpanChain line.length pos (finditerGo M line fuel pos) := by
  induction fuel generalizing pos with
  | zero => exact .nil pos
  | succ fuel ih =>
    rw [finditerGo]
    split
    case isTrue hlt =>
      cases hm : M (line.drop pos) with
      | none => exact (ih (pos + 1)).weaken (by omega)
      | some p =>
        obtain ⟨caps, rest⟩ := p
        obtain ⟨heq, hne⟩ := hM _ _ _ hm
        have hlen : caps.text.length + rest.length = line.length - pos := by
          have := congrArg List.length heq
          simp only [List.length_drop, List.length_append] at this
          omega
        have h1 : 1 ≤ caps.text.length := by
          cases ht : caps.text with
          | nil => exact absurd ht hne
          | cons a l => simp [ht]
        exact .cons (le_refl pos) (by omega) (by omega) (ih (pos + caps.text.length))
    case isFalse => exact .nil pos

theorem drop_sublist_drop_of_le {α : Type _} (l : List α) {a b : ℕ} (h : a ≤ b) :
    List.Sublist (l.drop b) (l.drop a) := by
  have : l.drop b = (l.drop a).drop (b - a) := by
    rw [List.drop_drop]
    congr 1
    omega
  rw [this]
  exact List.drop_sublist _ _

/-- The characters emitted by a tagged-character slot, prefixed to a
    sublist of the tail, stay a sublist of any earlier suffix. -/
theorem cons_getElem_sublist {ln u : Str} {e q : ℕ}
    (he : e < ln.length) (hq : q ≤ e) (hu : List.Sublist u (ln.drop (e + 1))) :
    List.Sublist (ln[e] :: u) (ln.drop q) := by
  refine List.Sublist.trans ?_ (drop_sublist_drop_of_le ln hq)
  rw [List.drop_eq_getElem_cons he]
  exact List.cons_sublist_cons.mpr hu

theorem splitLoop_map_fst_sublist (ln : Str) (ms : List (ℕ × ℕ)) (p : ℕ)
    (hms : SpanChain ln.length p ms) :
    List.Sublist ((splitLoop ln ms p).map Prod.fst)
      (ln.drop (if p = 0 then 0 else p + 1)) := by
  induction ms generalizing p with
  | nil =>
    rw [splitLoop]
    split
    · have hcomp : (Prod.fst ∘ fun c => ((c : Char), (none : Option Str))) = id := rfl
      rw [List.map_map, hcomp, List.map_id]
      by_cases hp : p = 0
      · rw [if_pos hp]
        rw [hp]
        simpa using List.drop_sublist 1 ln
      · rw [if_neg hp]
    · simp
  | cons span rest ih =>
    obtain ⟨s, e⟩ := span
    cases hms with
    | cons hps hse helen hrest =>
    have hrec : List.Sublist ((splitLoop ln rest e).map Prod.fst) (ln.drop (e + 1)) := by
      have := ih e hrest
      rwa [if_neg (by omega)] at this
    have hmid : ∀ q, q ≤ e →
        List.Sublist (pySlice ln e (e + 1) ++ (splitLoop ln rest e).map Prod.fst)
          (ln.drop q) := by
      intro q hq
      by_cases he : e < ln.length
      · have h1 : pySlice ln e (e + 1) = [ln[e]] := by
          unfold pySlice
          rw [show e + 1 - e = 1 from by omega, List.drop_eq_getElem_cons he]
          rfl
        rw [h1]
        exact cons_getElem_sublist he hq hrec
      · have h1 : pySlice ln e (e + 1) = [] := by
          unfold pySlice
          rw [List.drop_eq_nil_of_le (by omega), List.take_nil]
        rw [h1, List.nil_append]
        exact hrec.trans (drop_sublist_drop_of_le ln (by omega))
    rw [splitLoop]
    have hcomp2 :
        (Prod.fst ∘ fun c => ((c : Char), some (pySlice ln s e))) = id := rfl
    simp only [List.map_append, List.map_map, List.append_assoc, hcomp2, List.map_id]
    split
    case isTrue hgap =>
      have hcomp1 : (Prod.fst ∘ fun c => ((c : Char), (none : Option Str))) = id := rfl
      rw [List.map_map, hcomp1, List.map_id]
      set a := if p = 0 then 0 else p + 1 with ha
      have haq : a ≤ s := by
        rw [ha]
        split <;> omega
      have hseg : (if p = 0 then pySlice ln p s else pySlice ln (p + 1) s) =
          (ln.drop a).take (s - a) := by
        by_cases hp : p = 0 <;> simp [ha, hp, pySlice]
      rw [hseg]
      have hdecomp : ln.drop a = (ln.drop a).take (s - a) ++ ln.drop s := by
        conv_lhs => rw [← List.take_append_drop (s - a) (ln.drop a)]
        rw [List.drop_drop]
        congr 2
        omega
      conv_rhs => rw [hdecomp]
      exact (hmid s (by omega)).append_left _
    case isFalse hgap =>
      simp only [List.map_nil, List.nil_append]
      by_cases hp : p = 0
      · rw [if_pos hp]
        exact hmid 0 (by omega)
      · rw [if_neg hp]
        exact hmid (p + 1) (by omega)

/-- C1, amended.  For every ln and every built-in mode, the tokenizer's
    graphemes form a sublist of the input ln: strictly left-to-right,
    no duplication, no reordering — but not the whole ln (tag text is
    never emitted as graphemes, and the scan can drop characters, so the
    claimed equality fails; see the counterexample). -/
theorem c1_graphemes_sublist_amended (mode : Mode) (ln : Str) :
    List.Sublist ((splitPairs mode ln).map Prod.fst) ln := by
  have h := splitLoop_map_fst_sublist ln
    (finditer (matchOf mode) ln) 0
    (finditerGo_chain (matchOf_consumes mode) ln (ln.length + 1) 0)
  simpa [splitPairs, finditer] using h

/-! ## Strict-mode parse and format lemmas (C2, C6)

The round-trip and normalization claims are settled over the canonical
strict-mode texts `mkStrictText`.  The lemmas below evaluate the embedded
parser and formatter symbolically in the minute/second values while doing a
finite case split over the millisecond digits. -/

theorem pad2_spec : ∀ n, n < 100 → (pad2 n).length = 2 ∧
    (pad2 n).all isDigitChar = true ∧ digitsToNat (pad2 n) = n ∧ pad2 n ≠ [] := by
  decide

theorem digitChar_spec : ∀ d, d < 10 →
    isDigitChar (digitChar d) = true ∧ (digitChar d).toNat = 48 + d := by
  decide

theorem readCharSet_complete {S : List Char} {c : Char} (h : c ∈ S) (rest : Str) :
    readCharSet S (c :: rest) = some (c, rest) := by
  simp [readCharSet, h]

theorem readExactDigits_complete (d : Str) (rest : Str) (hd : d.all isDigitChar = true) :
    readExactDigits d.length (d ++ rest) = some (d, rest) := by
  induction d with
  | nil => rfl
  | cons a t ih =>
    simp only [List.all_cons, Bool.and_eq_true] at hd
    simp [readExactDigits, hd.1, ih hd.2]

theorem matchStrict_complete (bl br : Bool) (m s d1 d2 : ℕ)
    (hm : m < 100) (hs : s < 100) (hd1 : d1 < 10) (hd2 : d2 < 10) :
    matchStrict (mkStrictText bl br m s d1 d2) =
      some (strictCaps bl br m s d1 d2, []) := by
  obtain ⟨hml, hmd, -, -⟩ := pad2_spec m hm
  obtain ⟨hsl, hsd, -, -⟩ := pad2_spec s hs
  have hmsd : (msField d1 d2).all isDigitChar = true := by
    simp [msField, List.all_cons, (digitChar_spec d1 hd1).1, (digitChar_spec d2 hd2).1]
  have hlb : lbChar bl = '[' ∨ lbChar bl = '<' := by
    cases bl <;> simp [lbChar]
  have hrb : rbChar br = ']' ∨ rbChar br = '>' := by
    cases br <;> simp [rbChar]
  have hmins := readExactDigits_complete (pad2 m)
    (':' :: (pad2 s ++ '.' :: (msField d1 d2 ++ [rbChar br]))) hmd
  rw [hml] at hmins
  have hsecs := readExactDigits_complete (pad2 s)
    ('.' :: (msField d1 d2 ++ [rbChar br])) hsd
  rw [hsl] at hsecs
  have hmsr := readExactDigits_complete (msField d1 d2) [rbChar br] hmsd
  rw [show (msField d1 d2).length = 2 from rfl] at hmsr
  unfold matchStrict mkStrictText
  simp [readCharSet, hlb, hrb, hmins, hsecs, hmsr, strictCaps, lbClass, rbClass]

/-- `_initialize_time_tab` on a state holding a matching strict-mode text. -/
theorem reInitialize_strict (t : TimeTab) (txt : Str) (caps : MatchCaps) (rest : Str)
    (hcur : t.current = some txt) (hmode : t.mode = .strict)
    (hmatch : matchStrict txt = some (caps, rest)) :
    reInitialize t = .ok
      { t with
        matchCaps := some caps
        minLenMinutes := some caps.minutes.length
        minLenSeconds := some caps.seconds.length
        lenMillisecond := some caps.milliseconds.length
        brackets := some (caps.lb, caps.rb)
        minSecSep := some caps.minSecSep
        secMsSep := caps.secMsSep
        timeStamp := some (capsMicroseconds caps) } := by
  unfold reInitialize
  rw [hcur]
  dsimp only
  rw [show matchOf t.mode = matchStrict from by rw [hmode]; rfl, hmatch]

theorem initTimeTab_strict (txt : Str) (caps : MatchCaps) (rest : Str)
    (hmatch : matchStrict txt = some (caps, rest)) :
    initTimeTab (some txt) .strict = .ok
      { original := some txt, current := some txt, mode := .strict
        matchCaps := some caps
        minLenMinutes := some caps.minutes.length
        minLenSeconds := some caps.seconds.length
        lenMillisecond := some caps.milliseconds.length
        cutOff := true
        brackets := some (caps.lb, caps.rb)
        minSecSep := some caps.minSecSep
        secMsSep := caps.secMsSep
        timeStamp := some (capsMicroseconds caps) } := by
  unfold initTimeTab
  exact reInitialize_strict _ txt caps rest rfl rfl hmatch

/-- The duration parsed out of a canonical strict text, in microseconds:
    the two millisecond digits contribute `d1` milliseconds (the code pads
    them on the left) plus a rounded sub-microsecond carry from `d2`. -/
theorem capsMicroseconds_strict (bl br : Bool) (m s d1 d2 : ℕ)
    (hm : m < 100) (hs : s < 100) (hd1 : d1 < 10) (hd2 : d2 < 10) :
    capsMicroseconds (strictCaps bl br m s d1 d2) =
      (((m * 60 + s) * 1000 + d1) * 1000 + if 10 < 2 * d2 then 1 else 0 : ℕ) := by
  obtain ⟨-, -, hmv, hmne⟩ := pad2_spec m hm
  obtain ⟨-, -, hsv, hsne⟩ := pad2_spec s hs
  have h1 : (digitChar d1).toNat = 48 + d1 := (digitChar_spec d1 hd1).2
  have h2 : (digitChar d2).toNat = 48 + d2 := (digitChar_spec d2 hd2).2
  have hrj : rjust 4 '0' (msField d1 d2) = '0' :: '0' :: msField d1 d2 := rfl
  unfold capsMicroseconds strictCaps
  dsimp only
  rw [if_neg hmne, if_neg hsne, hmv, hsv, hrj]
  have htake : ('0' :: '0' :: msField d1 d2).take 3 = ['0', '0', digitChar d1] := rfl
  have hdrop : ('0' :: '0' :: msField d1 d2).drop 3 = [digitChar d2] := rfl
  rw [htake, hdrop]
  have hv1 : digitsToNat ['0', '0', digitChar d1] = d1 := by
    simp [digitsToNat, h1]
  have hv2 : digitsToNat [digitChar d2] = d2 := by
    simp [digitsToNat, h2]
  rw [hv1, hv2]
  norm_num

/-- `Except.bind` on a success. -/
theorem exceptOkBind {α β : Type _} (a : α) (f : α → Except PyError β) :
    (Except.ok a).bind f = f a := rfl

/-- Monadic bind on an `Except` success. -/
theorem exceptOkSeq {α β : Type _} (a : α) (f : α → Except PyError β) :
    (Except.ok a : Except PyError α) >>= f = f a := rfl

/-- Finite check over the millisecond digits: re-rendering the millisecond
    value a strict text parses to reproduces a canonical two-digit field. -/
theorem msTake_spec : ∀ a, a < 10 → ∀ e, e < 2 →
    (ljust 2 '0' (natDigits (a * 1000 + e))).take 2 =
      msField (if a = 0 ∧ e = 1 then 1 else a) 0 := by
  decide

/-- Special case of `msTake_spec` for a trailing zero digit. -/
theorem msTakeZero_spec : ∀ a, a < 10 →
    (ljust 2 '0' (natDigits (a * 1000))).take 2 = msField a 0 := by
  decide

/-- `convert_time_tab_to_time_tab_classmethod` on a nonnegative duration,
    reduced to ℕ arithmetic. -/
theorem convertClassmethod_natCast (N : ℕ) (w1 w2 w3 : ℕ) (cut : Bool)
    (br sep : Str × Str) :
    convertClassmethod (N : ℤ) w1 w2 w3 cut br sep =
      br.1 ++ rjust w1 '0' (natDigits (N / 60000000)) ++ sep.1 ++
      rjust w2 '0' (natDigits ((N % 60000000) / 1000000)) ++ sep.2 ++
      (if cut then (ljust w3 '0' (natDigits (N % 1000000))).take w3
       else ljust w3 '0' (natDigits (N % 1000000))) ++ br.2 := by
  have h1 : ((N : ℤ).fdiv 60000000) = ((N / 60000000 : ℕ) : ℤ) := by
    rw [show (60000000 : ℤ) = ((60000000 : ℕ) : ℤ) from rfl]
    exact (Int.ofNat_fdiv N 60000000).symm
  have h2 : ((N : ℤ).emod 60000000).toNat = N % 60000000 := rfl
  have h3 : ((N : ℤ).emod 1000000).toNat = N % 1000000 := rfl
  have h4 : ∀ k : ℕ, intDigits (k : ℤ) = natDigits k := by
    intro k
    simp [intDigits, Int.not_lt.mpr (Int.natCast_nonneg k)]
  simp only [convertClassmethod]
  rw [h1, h2, h3, h4]

/-- C2, amended.  The claim's round trip does hold on the canonical
    strict-mode texts whose seconds value is below 60 and whose millisecond
    field ends in the digit `0`: parsing such a text and re-rendering it
    with the captured field widths, separators and brackets reproduces the
    text exactly.  (The counterexample shows the second millisecond digit
    must be `0`: any other final digit is lost by the parse.) -/
theorem c2_roundtrip_amended (bl br : Bool) (m s d1 : ℕ)
    (hm : m < 100) (hs : s < 60) (hd1 : d1 < 10) :
    (initTimeTab (some (mkStrictText bl br m s d1 0)) .strict).bind
      convertBaseOnInnerParam = .ok (mkStrictText bl br m s d1 0) := by
  have hmatch := matchStrict_complete bl br m s d1 0 hm (by omega) hd1 (by omega)
  rw [initTimeTab_strict _ _ _ hmatch, exceptOkBind]
  unfold convertBaseOnInnerParam
  dsimp only
  rw [show (strictCaps bl br m s d1 0).minutes = pad2 m from rfl,
    show (strictCaps bl br m s d1 0).seconds = pad2 s from rfl,
    show (strictCaps bl br m s d1 0).milliseconds = msField d1 0 from rfl,
    show (strictCaps bl br m s d1 0).lb = [lbChar bl] from rfl,
    show (strictCaps bl br m s d1 0).rb = [rbChar br] from rfl,
    show (strictCaps bl br m s d1 0).minSecSep = [':'] from rfl,
    show (strictCaps bl br m s d1 0).secMsSep = some ['.'] from rfl,
    Option.getD_some]
  rw [capsMicroseconds_strict bl br m s d1 0 hm (by omega) hd1 (by omega)]
  rw [(pad2_spec m hm).1, (pad2_spec s (by omega)).1]
  rw [show (msField d1 0).length = 2 from rfl]
  rw [show (((m * 60 + s) * 1000 + d1) * 1000 + if 10 < 2 * 0 then 1 else 0 : ℕ) =
      ((m * 60 + s) * 1000 + d1) * 1000 from by norm_num]
  rw [convertClassmethod_natCast]
  rw [show (((m * 60 + s) * 1000 + d1) * 1000) / 60000000 = m from by omega]
  rw [show ((((m * 60 + s) * 1000 + d1) * 1000) % 60000000) / 1000000 = s from by omega]
  rw [show (((m * 60 + s) * 1000 + d1) * 1000) % 1000000 = d1 * 1000 from by omega]
  rw [msTakeZero_spec d1 hd1]
  unfold mkStrictText pad2
  simp [List.append_assoc]

/-! ## Standardization lemmas (C6) -/

theorem initTimeTab_strictState (txt : Str) (caps : MatchCaps) (rest : Str)
    (hmatch : matchStrict txt = some (caps, rest)) :
    initTimeTab (some txt) .strict = .ok (strictStateO (some txt) txt caps) :=
  initTimeTab_strict txt caps rest hmatch

/-- Assigning a matching strict-mode text to `current_time_tab` leaves the
    state in the canonical post-initialization shape (the original text,
    mode and cut-off flag are untouched by the setter). -/
theorem setCurrent_strictState (t : TimeTab) (txt : Str) (caps : MatchCaps)
    (rest : Str) (hmode : t.mode = .strict) (hcut : t.cutOff = true)
    (hmatch : matchStrict txt = some (caps, rest)) :
    setCurrentTimeTab t txt = .ok (strictStateO t.original txt caps) := by
  obtain ⟨o, c, mo, mc, w1, w2, w3, cut, bra, s1, s2, ts⟩ := t
  simp only at hmode hcut
  subst hmode hcut
  unfold setCurrentTimeTab
  rw [reInitialize_strict _ txt caps rest rfl rfl hmatch]
  rfl

/-- `convert_to_standardized_time_tab` on the state parsed from a strict
    text: brackets are completed from the captured left bracket, the
    seconds value is reduced modulo 60 with carry into the minutes, and
    the millisecond field is re-rendered from the (lossily) parsed
    millisecond value. -/
theorem convertToStandardized_strictCaps (orig : Option Str) (txt : Str)
    (bl br : Bool) (m s d1 d2 : ℕ)
    (hm : m < 100) (hs : s < 100) (hd1 : d1 < 10) (hd2 : d2 < 10) :
    convertToStandardized (strictStateO orig txt (strictCaps bl br m s d1 d2)) =
      .ok (mkStrictText bl bl ((m * 60 + s) / 60) ((m * 60 + s) % 60)
        (carryMs d1 d2) 0) := by
  unfold convertToStandardized strictStateO
  dsimp only
  rw [show (strictCaps bl br m s d1 d2).lb = [lbChar bl] from rfl,
    show (strictCaps bl br m s d1 d2).rb = [rbChar br] from rfl]
  rw [show paringBrackets ([lbChar bl], [rbChar br]) = ([lbChar bl], [rbChar bl]) from by
    cases bl <;> simp [paringBrackets, lbChar, rbChar]]
  rw [capsMicroseconds_strict bl br m s d1 d2 hm hs hd1 hd2]
  rw [convertClassmethod_natCast]
  set e : ℕ := if 10 < 2 * d2 then 1 else 0 with he
  have hele : e ≤ 1 := by
    rw [he]
    split <;> omega
  rw [show (((m * 60 + s) * 1000 + d1) * 1000 + e) / 60000000 =
      (m * 60 + s) / 60 from by omega]
  rw [show ((((m * 60 + s) * 1000 + d1) * 1000 + e) % 60000000) / 1000000 =
      (m * 60 + s) % 60 from by omega]
  rw [show (((m * 60 + s) * 1000 + d1) * 1000 + e) % 1000000 =
      d1 * 1000 + e from by omega]
  rw [msTake_spec d1 hd1 e (by omega)]
  rw [show (if d1 = 0 ∧ e = 1 then 1 else d1) = carryMs d1 d2 from by
    unfold carryMs
    rw [he]
    by_cases hc : 10 < 2 * d2 <;> simp [hc]]
  unfold mkStrictText pad2
  simp [List.append_assoc]

/-- A canonical standardized state is a fixed point of `standardize_self`. -/
theorem standardize_strictState_fix (orig : Option Str) (bl : Bool) (M S a1 : ℕ)
    (hM : M < 100) (hS : S < 60) (ha : a1 < 10) :
    standardizeSelf
        (strictStateO orig (mkStrictText bl bl M S a1 0) (strictCaps bl bl M S a1 0)) =
      .ok (strictStateO orig (mkStrictText bl bl M S a1 0) (strictCaps bl bl M S a1 0)) := by
  have hconv := convertToStandardized_strictCaps orig (mkStrictText bl bl M S a1 0)
    bl bl M S a1 0 hM (by omega) ha (by omega)
  rw [show (M * 60 + S) / 60 = M from by omega,
    show (M * 60 + S) % 60 = S from by omega,
    show carryMs a1 0 = a1 from by simp [carryMs]] at hconv
  unfold standardizeSelf
  rw [hconv, exceptOkSeq]
  rw [setCurrent_strictState _ _ (strictCaps bl bl M S a1 0) [] rfl rfl
    (matchStrict_complete bl bl M S a1 0 hM (by omega) ha (by omega))]
  rfl

/-- The first `standardize_self` lands in a canonical standardized state. -/
theorem standardize_strictInit (orig : Option Str) (txt : Str) (bl br : Bool)
    (m s d1 d2 : ℕ) (hm : m < 100) (hs : s < 100) (hd1 : d1 < 10) (hd2 : d2 < 10)
    (hT : m * 60 + s < 6000) :
    standardizeSelf (strictStateO orig txt (strictCaps bl br m s d1 d2)) =
      .ok (strictStateO orig
        (mkStrictText bl bl ((m * 60 + s) / 60) ((m * 60 + s) % 60) (carryMs d1 d2) 0)
        (strictCaps bl bl ((m * 60 + s) / 60) ((m * 60 + s) % 60) (carryMs d1 d2) 0)) := by
  have hca : carryMs d1 d2 < 10 := by
    unfold carryMs
    split <;> omega
  unfold standardizeSelf
  rw [convertToStandardized_strictCaps orig txt bl br m s d1 d2 hm hs hd1 hd2,
    exceptOkSeq]
  rw [setCurrent_strictState _ _
    (strictCaps bl bl ((m * 60 + s) / 60) ((m * 60 + s) % 60) (carryMs d1 d2) 0) []
    rfl rfl
    (matchStrict_complete bl bl ((m * 60 + s) / 60) ((m * 60 + s) % 60)
      (carryMs d1 d2) 0 (by omega) (by omega) hca (by omega))]
  rfl

/-! ## Claim theorems (concrete parts) -/

/-- C1, counterexample.  The claim: for every input line and every mode the
    tokenizer's graphemes concatenate to the input line, including lines
    with no time tag.  On the tag-free line `"ab"` (any mode; here strict)
    the final loop of `split_line_to_time_and_char` starts from
    `prev_end + 1 = 1` and drops the first character, yielding only `"b"`. -/
theorem c1_coverage_counterexample :
    (splitPairs .strict (( r"ab" ).toList)).map Prod.fst ≠ ( r"ab" ).toList := by
  decide

/-- C2, counterexample.  The claim: parsing a valid `(text, mode)` and
    re-formatting with the captured widths, separators and brackets yields
    the text back.  For `"[00:01.01]"` under strict mode the parser
    left-pads the millisecond field `"01"` to `"0001"`, reading it as 0
    milliseconds plus a 0.1 µs remainder that rounds to nothing, and the
    formatter prints `"[00:01.00]"`. -/
theorem c2_roundtrip_counterexample :
    (initTimeTab (some (( r"[00:01.01]" ).toList)) .strict).bind
        convertBaseOnInnerParam =
      .ok (( r"[00:01.00]" ).toList) ∧
    (( r"[00:01.00]" ).toList : Str) ≠ ( r"[00:01.01]" ).toList := by
  decide

/-- C3.  The claim: `a + b` concatenates the group lists and recomputes the
    flat character sequence from them.  The code (LyricLineContent.py line
    326) runs `self._lyric_char_list.append(*group.original_annotated_string)`
    per group, so any group whose base is not a singleton raises
    `TypeError` — here `LyricLineContent("abc", strict)` holds one
    two-character group (`"bc"`, the tokenizer having dropped the first
    character), and adding it to itself fails. -/
theorem c3_line_add_raises_type_error :
    (mkLineContentFromText (( r"abc" ).toList) .strict).bind
        (fun lc => lineAdd lc lc) =
      .error .typeError := by
  rfl

/-- C4, counterexample.  The claim: the scenario line under very-loose mode
    yields exactly 9 annotated characters.  It yields 8 (the enumeration in
    the claim itself lists 8 graphemes). -/
theorem c4_count_counterexample :
    ¬ ((split .veryLoose c4Line).map List.length = .ok 9) := by
  decide

/-- C4, amended.  Tokenizing the scenario line under very-loose mode yields
    exactly 8 annotated characters: `'1'` untagged, `'あ'` tagged with
    duration 0, `'N'`, `'i'`, `'你'`, `'他'`, `' '` untagged, and `'い'`
    tagged with duration 1000 ms (= 1000000 µs). -/
theorem c4_scenario_amended :
    (split .veryLoose c4Line).map (List.map charView) =
      .ok [('1', none), ('あ', some 0), ('N', none), ('i', none), ('你', none),
           ('他', none), (' ', none), ('い', some 1000000)] := by
  decide

/-- C5.  The claim (and the class docstring): very-loose mode accepts a
    bare tag with no brackets, capturing empty bracket groups.  The
    `TIME_TAB_VERY_LOOSE_REGREX` actually in the source is identical to the
    loose pattern — its `left_bracket` group is the mandatory class
    `[\[<]` — so `LyricTimeTab("00:00.00", ("very_loose", None))` raises
    `ValueError` instead of parsing. -/
theorem c5_very_loose_requires_bracket :
    initTimeTab (some (( r"00:00.00" ).toList)) .veryLoose =
      .error .valueError := by
  rfl

/-- C6, counterexample.  The claim: a second `standardize_self` leaves the
    standardized text and duration unchanged.  Starting from
    `LyricTimeTab("[00:00.456]", ("normal", None))` (45001 µs), the first
    call renders `[00:00.45]` and re-parses it to 4000 µs; the second call
    then renders `[00:00.40]` — the standardized text changes again. -/
theorem c6_idempotence_counterexample :
    ((initTimeTab (some (( r"[00:00.456]" ).toList)) .normal).bind
        standardizeSelf).map (·.current) =
      .ok (some (( r"[00:00.45]" ).toList)) ∧
    (((initTimeTab (some (( r"[00:00.456]" ).toList)) .normal).bind
        standardizeSelf).bind standardizeSelf).map (·.current) =
      .ok (some (( r"[00:00.40]" ).toList)) ∧
    (( r"[00:00.45]" ).toList : Str) ≠ ( r"[00:00.40]" ).toList := by
  decide

/-- C7.  The claim: `LyricPronunciationGroup.is_cjkv` is true iff every
    base character is CJKV.  The for/else in lines 230-241 is inverted: a
    group consisting of the CJKV character `你` yields `False`, while a
    group consisting of the non-CJKV character `a` yields `True` — the
    method computes the negation of what its docstring and the spec state
    (the per-character classifier itself is correct). -/
theorem c7_group_is_cjkv_inverted :
    isCjkvChar '你' = true ∧
    PronGroup.isCjkv (.mk [⟨'你', none⟩] none) = false ∧
    isCjkvChar 'a' = false ∧
    PronGroup.isCjkv (.mk [⟨'a', none⟩] none) = true := by
  decide

/-- C8.  The claim: the kana-tag encoder emits, per CJKV run with a
    reading, the reading text once followed by the run length as digits
    (`你他` with reading `えお` should contribute `えお2`).  The code
    (lines 596-638) instead emits the group's own base text
    (`get_base_str_without_number`) followed by `"1"`, and then
    `count_cjkv() * "1"` — producing `你他111`. -/
theorem c8_kana_tag_uses_base_not_reading :
    getKanaTag c8Content = ( r"你他111" ).toList ∧
    getKanaTag c8Content ≠ ( r"えお2" ).toList := by
  decide

/-- C9.  For an initialized tab `t` and any accepted right operand with
    timedelta `d` microseconds, `t + x` is a fresh tab equal to `t` in
    every field except the time stamp, which becomes the sum — the operand
    guard deep-copies `t` before mutating, so `t` itself is untouched
    (which is why the embedding of the operator is a pure function of
    `t`). -/
theorem c9_add_duration_and_frame (t : TimeTab) (o : Operand) (us d : ℤ)
    (h : t.timeStamp = some us) (ho : operandDelta o = some d) :
    addOp t o = .ok { t with timeStamp := some (us + d) } := by
  cases o with
  | tab o' =>
    simp only [operandDelta] at ho
    simp [addOp, ho, timeStampAdd, h]
  | int n =>
    simp only [operandDelta, Option.some.injEq] at ho
    simp [addOp, timeStampAdd, h, ho]
  | float q =>
    simp only [operandDelta, Option.some.injEq] at ho
    simp [addOp, timeStampAdd, h, ho]
  | delta d' =>
    simp only [operandDelta, Option.some.injEq] at ho
    simp [addOp, timeStampAdd, h, ho]

/-- Witness for C9 at `sampleTab + 1` (one second). -/
theorem c9_add_duration_and_frame_witness :
    sampleTab.timeStamp = some 0 ∧ operandDelta (.int 1) = some 1000000 ∧
    addOp sampleTab (.int 1) = .ok { sampleTab with timeStamp := some (0 + 1000000) } :=
  ⟨rfl, rfl, c9_add_duration_and_frame sampleTab (.int 1) 0 1000000 rfl rfl⟩

/-- C10.  `LyricCharacter.__init__` (lines 63-85) assigns `('<', '>')` to
    the passed tab's `brackets` attribute, mutating the caller's object:
    for any tab whose brackets are not already `('<', '>')`, construction
    succeeds and the shared tab's brackets have changed to `('<', '>')`. -/
theorem c10_char_ctor_mutates_brackets (c : Char) (t : TimeTab)
    (h : t.brackets ≠ some (['<'], ['>'])) :
    mkLyricCharacter [c] (some t) =
      .ok ⟨c, some { t with brackets := some (['<'], ['>']) }⟩ ∧
    { t with brackets := some (['<'], ['>']) } ≠ t := by
  refine ⟨rfl, fun heq => h ?_⟩
  exact (congrArg TimeTab.brackets heq).symm

/-- Witness for C10 at `LyricCharacter('a', sampleTab)` (whose brackets are
    `('[', ']')`). -/
theorem c10_char_ctor_mutates_brackets_witness :
    sampleTab.brackets ≠ some (['<'], ['>']) ∧
    (mkLyricCharacter ['a'] (some sampleTab) =
        .ok ⟨'a', some { sampleTab with brackets := some (['<'], ['>']) }⟩ ∧
      { sampleTab with brackets := some (['<'], ['>']) } ≠ sampleTab) :=
  ⟨by decide, c10_char_ctor_mutates_brackets 'a' sampleTab (by decide)⟩


/-- Witness for the amended C2 round trip at `"[00:01.50]"`. -/
theorem c2_roundtrip_amended_witness :
    (0 : ℕ) < 100 ∧ (1 : ℕ) < 60 ∧ (5 : ℕ) < 10 ∧
    (initTimeTab (some (mkStrictText true true 0 1 5 0)) .strict).bind
      convertBaseOnInnerParam = .ok (mkStrictText true true 0 1 5 0) :=
  ⟨by decide, by decide, by decide,
    c2_roundtrip_amended true true 0 1 5 (by decide) (by decide) (by decide)⟩

/-- C6, amended.  For a `LyricTimeTab` built from a strict-mode text whose
    total time is below 100 minutes, the state reached by the first
    `standardize_self` is a fixed point: the second call reproduces the
    same standardized tag text and the same held duration (indeed the whole
    state).  The counterexample shows why the strict-mode hypothesis
    matters: a normal-mode three-digit millisecond field keeps changing. -/
theorem c6_standardize_fixpoint_amended (bl br : Bool) (m s d1 d2 : ℕ)
    (hm : m < 100) (hs : s < 100) (hd1 : d1 < 10) (hd2 : d2 < 10)
    (hT : m * 60 + s < 6000) (t0 t1 : TimeTab)
    (h0 : initTimeTab (some (mkStrictText bl br m s d1 d2)) .strict = .ok t0)
    (h1 : standardizeSelf t0 = .ok t1) :
    standardizeSelf t1 = .ok t1 := by
  rw [initTimeTab_strictState _ _ _
    (matchStrict_complete bl br m s d1 d2 hm hs hd1 hd2)] at h0
  injection h0 with h0
  subst h0
  rw [standardize_strictInit _ _ bl br m s d1 d2 hm hs hd1 hd2 hT] at h1
  injection h1 with h1
  subst h1
  exact standardize_strictState_fix _ bl ((m * 60 + s) / 60) ((m * 60 + s) % 60)
    (carryMs d1 d2) (by omega) (by omega) (by unfold carryMs; split <;> omega)

/-- Witness for the amended C6 at `"[00:00.45]"` (first standardization
    keeps `[00:00.40]` fixed afterwards). -/
theorem c6_standardize_fixpoint_amended_witness :
    (0 : ℕ) < 100 ∧ (0 : ℕ) < 100 ∧ (4 : ℕ) < 10 ∧ (5 : ℕ) < 10 ∧
    (0 * 60 + 0 : ℕ) < 6000 ∧
    initTimeTab (some (mkStrictText true true 0 0 4 5)) .strict =
      .ok (strictStateO (some (mkStrictText true true 0 0 4 5))
        (mkStrictText true true 0 0 4 5) (strictCaps true true 0 0 4 5)) ∧
    standardizeSelf (strictStateO (some (mkStrictText true true 0 0 4 5))
        (mkStrictText true true 0 0 4 5) (strictCaps true true 0 0 4 5)) =
      .ok (strictStateO (some (mkStrictText true true 0 0 4 5))
        (mkStrictText true true 0 0 4 0) (strictCaps true true 0 0 4 0)) ∧
    standardizeSelf (strictStateO (some (mkStrictText true true 0 0 4 5))
        (mkStrictText true true 0 0 4 0) (strictCaps true true 0 0 4 0)) =
      .ok (strictStateO (some (mkStrictText true true 0 0 4 5))
        (mkStrictText true true 0 0 4 0) (strictCaps true true 0 0 4 0)) :=
  ⟨by decide, by decide, by decide, by decide, by decide, by decide, by decide,
    c6_standardize_fixpoint_amended true true 0 0 4 5 (by decide) (by decide)
      (by decide) (by decide) (by decide)
      (strictStateO (some (mkStrictText true true 0 0 4 5))
        (mkStrictText true true 0 0 4 5) (strictCaps true true 0 0 4 5))
      (strictStateO (some (mkStrictText true true 0 0 4 5))
        (mkStrictText true true 0 0 4 0) (strictCaps true true 0 0 4 0))
      (by decide) (by decide)⟩

end PyLrc